import Mathlib

/-!
Verification of the conversational-agent core
(ToolManager / CliChat / Chat / Gemini / app.CliChat).

Shallow embedding of the Python sources:
  - src/core/tools.py     (ToolManager)
  - src/core/chat.py      (Chat)
  - src/core/cli_chat.py  (CliChat)
  - src/core/gemini.py    (Gemini)
  - src/app.py            (CliChat variant, GeminiService)

Machine-level Python behaviours that matter here are modelled explicitly:
functions that can raise return Except, Python function bodies with no
return statement yield None (modelled as Option.none), and a local
variable that may be unbound is carried as an Option of its value.
-/

namespace Src

/-- A tool descriptor as returned by MCPClient.list_tools (mcp.types.Tool). -/
structure Tool where
  name : String
  description : String
  inputSchema : String
  deriving DecidableEq

/-- One content item of a CallToolResult; the dispatcher only reads the
text of items that are TextContent instances (src/core/tools.py:84-86). -/
inductive ContentItem where
  | textContent (text : String)
  | otherContent
  deriving DecidableEq

/-- Result of MCPClient.call_tool (mcp.types.CallToolResult). -/
structure CallToolResult where
  content : List ContentItem
  isError : Bool
  deriving DecidableEq

/-- A function-call request part of a model response (genai function call
object, read via .name and .input in src/core/tools.py:63-64). -/
structure FunctionCall where
  name : String
  input : List (String × String)
  deriving DecidableEq

/-- The tagged union of genai message parts used by the core:
Text, FunctionCall, and the functionResponse dict built by
ToolManager._build_tool_result_part (src/core/tools.py:44-49). -/
inductive Part where
  | text (s : String)
  | functionCall (fc : FunctionCall)
  | functionResponse (name : String) (content : String) (is_error : Bool)
  deriving DecidableEq

/-- Python attribute access part.function_call: the function-call payload
of a part, None (here Option.none) for the other variants. -/
def Part.function_call : Part → Option FunctionCall
  | Part.functionCall fc => some fc
  | _ => none

/-- Python attribute access part.text: the text payload of a Text part,
empty for the other variants. -/
def Part.text_attr : Part → String
  | Part.text s => s
  | _ => ""

/-- Python exceptions that the embedded code can raise. -/
inductive PyError where
  | unboundLocalError (varName : String)
  | indexError
  deriving DecidableEq

/-- A connected provider session (MCPClient in src/app.py): its tool list
as returned by list_tools, and its call_tool behaviour, which may raise
(Except.error carries str(e)) or return None (the inner Option). -/
structure MCPClient where
  tools : List Tool
  callToolImpl : String → List (String × String) → Except String (Option CallToolResult)

/-- MCPClient.list_tools. -/
def MCPClient.list_tools (c : MCPClient) : List Tool := c.tools

/-- MCPClient.call_tool. -/
def MCPClient.call_tool (c : MCPClient) (tool_name : String)
    (tool_input : List (String × String)) : Except String (Option CallToolResult) :=
  c.callToolImpl tool_name tool_input

/-- ToolManager._find_client_with_tool (src/core/tools.py:24-34): linear
scan over the clients, returning the first one whose tool list contains a
tool of the given name; the generator-with-default next(..., None) is
List.find?. -/
def _find_client_with_tool : List MCPClient → String → Option MCPClient
  | [], _ => none
  | client :: rest, tool_name =>
    match (client.list_tools).find? (fun t => t.name == tool_name) with
    | some _ => some client
    | none => _find_client_with_tool rest tool_name

/-- The status literal "success" | "error" of _build_tool_result_part. -/
inductive Status where
  | success
  | error
  deriving DecidableEq

/-- ToolManager._build_tool_result_part (src/core/tools.py:36-49): builds
the functionResponse part dict; is_error is status == "error". -/
def _build_tool_result_part (tool_name : String) (text : String) (status : Status) : Part :=
  Part.functionResponse tool_name text (status == Status.error)

/-- Escape for json.dumps string serialization (backslash and quote). -/
def jsonEscape (s : String) : String :=
  String.join (s.toList.map (fun c =>
    if c = '\\' then "\\\\"
    else if c = '"' then "\\\""
    else String.singleton c))

/-- json.dumps of a list of strings (src/core/tools.py:87). -/
def json_dumps_list (items : List String) : String :=
  "[" ++ String.intercalate ", " (items.map (fun s => "\"" ++ jsonEscape s ++ "\"")) ++ "]"

/-- json.dumps of the dict with single key "error" (src/core/tools.py:100). -/
def json_dumps_error (msg : String) : String :=
  "\x7b\"error\": \"" ++ jsonEscape msg ++ "\"\x7d"

/-- The ASCII single-quote character used in the f-string of
src/core/tools.py:96. -/
def singleQuoteChar : Char := Char.ofNat 39

/-- The f-string at src/core/tools.py:96, with e the exception text. -/
def error_message_for (tool_name : String) (e : String) : String :=
  "Error executing tool " ++ String.singleton singleQuoteChar ++ tool_name ++
    String.singleton singleQuoteChar ++ ": " ++ e

/-- The status expression of src/core/tools.py:90-93 and 101-103:
"error" if tool_output and tool_output.isError else "success";
a None tool_output is falsy, a CallToolResult object is truthy. -/
def statusOf (tool_output : Option CallToolResult) : Status :=
  match tool_output with
  | some out => if out.isError then Status.error else Status.success
  | none => Status.success

/-- The request loop of ToolManager.execute_tool_requests
(src/core/tools.py:62-106). The second argument is the state of the
Python local variable tool_output, which is function-scoped: none while
it has never been assigned, some v once assigned (the binding survives
across loop iterations and is left unchanged when call_tool raises).
The except handler (lines 95-104) evaluates tool_output: when it is
unbound this raises UnboundLocalError, which is not caught and
propagates; otherwise the stale value decides the status. -/
def execute_loop (clients : List MCPClient) :
    List FunctionCall → Option (Option CallToolResult) → List Part →
    Except PyError (List Part)
  | [], _, acc => Except.ok acc
  | req :: rest, tool_output_var, acc =>
    let tool_name := req.name
    match _find_client_with_tool clients tool_name with
    | none =>
      execute_loop clients rest tool_output_var
        (acc ++ [_build_tool_result_part tool_name "Could not find that tool" Status.error])
    | some client =>
      match client.call_tool tool_name req.input with
      | Except.ok tool_output =>
        let items := match tool_output with
          | some out => out.content
          | none => []
        let content_list := items.filterMap (fun item => match item with
          | ContentItem.textContent t => some t
          | ContentItem.otherContent => none)
        let content_json := json_dumps_list content_list
        execute_loop clients rest (some tool_output)
          (acc ++ [_build_tool_result_part tool_name content_json (statusOf tool_output)])
      | Except.error e =>
        match tool_output_var with
        | none => Except.error (PyError.unboundLocalError "tool_output")
        | some stale =>
          execute_loop clients rest (some stale)
            (acc ++ [_build_tool_result_part tool_name
              (json_dumps_error (error_message_for tool_name e)) (statusOf stale)])

/-- The list comprehension at src/core/tools.py:56-60: the function_call
payloads of the parts that have one. -/
def tool_requests_of (parts : List Part) : List FunctionCall :=
  parts.filterMap Part.function_call

/-- The value of the local tool_result_blocks after the loop of
ToolManager.execute_tool_requests finishes (src/core/tools.py:61-106),
or the uncaught exception if one escapes the loop. -/
def execute_tool_requests_blocks (clients : List MCPClient) (parts : List Part) :
    Except PyError (List Part) :=
  execute_loop clients (tool_requests_of parts) none []

/-- ToolManager.execute_tool_requests (src/core/tools.py:51-106) as
written: the body builds tool_result_blocks but contains no return
statement, so control falls off the end and Python returns None
(modelled as Except.ok none); an uncaught exception inside the loop
propagates to the caller (Except.error). -/
def execute_tool_requests (clients : List MCPClient) (parts : List Part) :
    Except PyError (Option (List Part)) :=
  match execute_tool_requests_blocks clients parts with
  | Except.ok _ => Except.ok none
  | Except.error e => Except.error e

/-- The dict built for each tool in ToolManager.get_all_tools
(src/core/tools.py:15-19). -/
structure ToolDict where
  name : String
  description : String
  input_schema : String
  deriving DecidableEq

/-- ToolManager.get_all_tools (src/core/tools.py:8-22): concatenates the
converted tool lists of all clients, in registration (dict insertion)
order. -/
def get_all_tools (clients : List MCPClient) : List ToolDict :=
  clients.foldl
    (fun tools client =>
      tools ++ client.list_tools.map (fun t =>
        { name := t.name, description := t.description, input_schema := t.inputSchema }))
    []

/-- In google.genai the parts of a GenerateContentResponse are Part objects,
never Python str, so the isinstance(part, str) test at
src/core/gemini.py:24 is False for every part (were it True, the
subsequent part.function_call and part.text attribute accesses would
raise AttributeError on a str). -/
def isinstance_str (_p : Part) : Bool := false

/-- Gemini.text_from_message (src/core/gemini.py:20-26): joins with
newlines the text of the parts passing the comprehension filter
isinstance(part, str) and not part.function_call. -/
def text_from_message (parts : List Part) : String :=
  String.intercalate "\n"
    ((parts.filter (fun p => isinstance_str p && !(p.function_call).isSome)).map
      Part.text_attr)

/-- The Done-state answer of Chat.run (src/core/chat.py:116-120): the
extracted text, or the fixed sentinel when it is falsy (empty). -/
def chat_done_answer (response_parts : List Part) : String :=
  let final_text_response := text_from_message response_parts
  if final_text_response = "" then "The model did not provide a text response."
  else final_text_response

/-- The use_tools test of Chat.run (src/core/chat.py:79):
query.startswith("/") or "@" in query. -/
def use_tools_for (query : String) : Bool :=
  query.startsWith "/" || query.toList.contains '@'

/-- The tool_config argument Chat.run passes to the model call
(src/core/chat.py:84-92): the aggregated catalog when use_tools holds,
otherwise None. -/
def tool_config_for (clients : List MCPClient) (query : String) : Option (List ToolDict) :=
  if use_tools_for query then some (get_all_tools clients) else none

/-- Python str.split() with no argument: split on runs of whitespace,
discarding empty tokens. Structural recursion over the characters with
an accumulator for the token being read. -/
def split_tokens : List Char → List Char → List String
  | [], cur => if cur.isEmpty then [] else [String.mk cur.reverse]
  | c :: rest, cur =>
    if c.isWhitespace then
      if cur.isEmpty then split_tokens rest []
      else String.mk cur.reverse :: split_tokens rest []
    else split_tokens rest (c :: cur)

/-- query.split() of Python. -/
def py_split (s : String) : List String :=
  split_tokens s.toList []

/-- Python str.startswith with a single-character prefix: true iff the
string is nonempty and its first character is c. -/
def py_starts_with (s : String) (c : Char) : Bool :=
  match s.toList with
  | [] => false
  | d :: _ => d == c

/-- Python word[1:]: drop the first character. -/
def py_drop_first (s : String) : String :=
  String.mk (s.toList.drop 1)

/-- The mention list of CliChat._extract_resources
(src/core/cli_chat.py:36 and src/app.py:118): the whitespace-delimited
tokens starting with "@", with the marker stripped. -/
def mentions_of (query : String) : List String :=
  (py_split query).filterMap (fun word =>
    if py_starts_with word '@' then some (py_drop_first word) else none)

/-- The role of a conversation message. -/
inductive Role where
  | user
  | model
  deriving DecidableEq

/-- A conversation message param dict: role plus ordered parts. -/
structure Message where
  role : Role
  parts : List Part
  deriving DecidableEq

/-- The document-server session seen through the doc_client: the id
catalog served at docs://documents, the per-document content served at
docs://documents/{id}, and (abstracted, since no claim depends on its
value) the converted message params that get_prompt plus
convert_prompt_messages_to_message_params produce for a command. -/
structure DocClient where
  docIds : List String
  docContent : String → String
  promptMessages : String → String → List Message

/-- A provider I/O operation performed during query preprocessing. -/
inductive ProviderOp where
  | readResource (uri : String)
  | getPrompt (name : String) (docId : String)
  deriving DecidableEq

/-- The tagged block of src/core/cli_chat.py:47 and src/app.py:133. -/
def document_block (doc_id : String) (content : String) : String :=
  "\n<document id=\"" ++ doc_id ++ "\">\n" ++ content ++ "\n</document>\n"

/-- CliChat._extract_resources (src/core/cli_chat.py:35-49): collect
mentions, read the id catalog (one read_resource on docs://documents),
then for each catalog id contained in the mentions read its content and
emit a tagged block; returns the joined block string together with the
ordered list of provider reads performed. -/
def _extract_resources (dc : DocClient) (query : String) : String × List ProviderOp :=
  let mentions := mentions_of query
  let fetched := dc.docIds.foldl
    (fun (acc : List (String × String) × List ProviderOp) doc_id =>
      if mentions.contains doc_id then
        (acc.1 ++ [(doc_id, dc.docContent doc_id)],
         acc.2 ++ [ProviderOp.readResource ("docs://documents/" ++ doc_id)])
      else acc)
    ([], [])
  (String.join (fetched.1.map (fun p => document_block p.1 p.2)),
   ProviderOp.readResource "docs://documents" :: fetched.2)

/-- CliChat._extract_resources of src/app.py:117-136: returns [] with no
I/O when there are no mentions; otherwise reads the catalog once and,
iterating over the mentions (mention order), fetches and wraps each
mention found in the catalog; the surrounding try/except only handles
provider failures, which the total DocClient of this model never produces. -/
def app_extract_resources (dc : DocClient) (query : String) : List Part × List ProviderOp :=
  let mentions := mentions_of query
  if mentions.isEmpty then ([], [])
  else
    let resources := dc.docIds
    let fetched := mentions.foldl
      (fun (acc : List (String × String) × List ProviderOp) mention =>
        if resources.contains mention then
          (acc.1 ++ [(mention, dc.docContent mention)],
           acc.2 ++ [ProviderOp.readResource ("docs://documents/" ++ mention)])
        else acc)
      ([], [])
    (fetched.1.map (fun p => Part.text (document_block p.1 p.2)),
     ProviderOp.readResource "docs://documents" :: fetched.2)

/-- Python words[0].replace("/", ""): every occurrence of "/" is
replaced by the empty string, i.e. every slash character is removed. -/
def py_remove_slashes (s : String) : String :=
  String.mk (s.toList.filter (fun c => c != '/'))

/-- CliChat._process_command (src/core/cli_chat.py:51-63), reduced to
the arguments of the get_prompt fetch it performs: none when the query
is not a command (returns False); for a command, the fetch arguments
(words[0].replace("/", ""), words[1]), or IndexError when there is no
second token (words[1] is evaluated before the fetch). -/
def _process_command (query : String) : Option (Except PyError (String × String)) :=
  if py_starts_with query '/' then
    let words := py_split query
    let command := py_remove_slashes (words.headD "")
    match words.get? 1 with
    | none => some (Except.error PyError.indexError)
    | some second => some (Except.ok (command, second))
  else
    none

/-- CliChat._process_query (src/core/cli_chat.py:65-77): commands are
expanded through get_prompt and appended; otherwise _extract_resources
always runs (unconditionally, even with no mention) and the appended
single text part of the appended user message is the triple-quoted f-string that
wraps the query and the expansion in 8-space indentation. Returns the
new history and the provider operations performed. -/
def cli_process_query (dc : DocClient) (history : List Message) (query : String) :
    Except PyError (List Message × List ProviderOp) :=
  match _process_command query with
  | some (Except.error e) => Except.error e
  | some (Except.ok (command, doc_id)) =>
    Except.ok (history ++ dc.promptMessages command doc_id,
      [ProviderOp.getPrompt command doc_id])
  | none =>
    let er := _extract_resources dc query
    let prompt := "\n        " ++ query ++ "\n\n        " ++ er.1 ++ "\n        "
    Except.ok (history ++ [{ role := Role.user, parts := [Part.text prompt] }], er.2)

/-- The query preprocessing of CliChat.run in src/app.py:138-141:
_extract_resources runs only when "@" occurs in the query, and the
parts of the appended user message are the literal query text followed by
the expansion blocks. -/
def app_run_preprocess (dc : DocClient) (history : List Message) (query : String) :
    List Message × List ProviderOp :=
  let er := if query.toList.contains '@' then app_extract_resources dc query else ([], [])
  (history ++ [{ role := Role.user, parts := Part.text query :: er.1 }], er.2)

/-- Effect of Gemini.chat on the messages list of the caller
(src/core/gemini.py:49-51): params["contents"] aliases the messages
list, and when a truthy (nonempty) system string is passed a system
message is inserted at index 0; otherwise the list is untouched. -/
def gemini_chat_effect (system : Option String) (messages : List Message) : List Message :=
  match system with
  | some s =>
    if s = "" then messages
    else { role := Role.user, parts := [Part.text s] } :: messages
  | none => messages

/-- The operations of the agent that touch the conversation history:
the user-message appends (Chat._process_query, add_user_message), the
model-message append (add_assistant_message), and the model call with
its optional system instruction. -/
inductive AgentOp where
  | appendUser (m : Message)
  | appendModel (m : Message)
  | modelCall (system : Option String)
  deriving DecidableEq

/-- Effect of one agent operation on the history. -/
def apply_agent_op (messages : List Message) : AgentOp → List Message
  | AgentOp.appendUser m => messages ++ [m]
  | AgentOp.appendModel m => messages ++ [m]
  | AgentOp.modelCall system => gemini_chat_effect system messages

/-- Run a sequence of agent operations over an initial history; the
final history is also the snapshot sent to the model (the messages list
itself). -/
def run_agent_ops (messages : List Message) (ops : List AgentOp) : List Message :=
  ops.foldl apply_agent_op messages

/-- The messages appended (in order) by a sequence of agent operations. -/
def appended_of (ops : List AgentOp) : List Message :=
  ops.filterMap (fun op => match op with
    | AgentOp.appendUser m => some m
    | AgentOp.appendModel m => some m
    | AgentOp.modelCall _ => none)

/-- The agent loop of Chat.run only ever calls Gemini.chat without a
system argument (src/core/chat.py:90-93), i.e. system None; a falsy
(empty) system string is equivalent. -/
def is_loop_op : AgentOp → Bool
  | AgentOp.modelCall (some s) => s == ""
  | _ => true

/-- A concrete provider owning the read_doc_contents tool, answering a
call with one text content item. -/
def demoClient : MCPClient :=
  { tools := [{ name := "read_doc_contents"
                description := "Reads the contents of a document given its ID."
                inputSchema := "schema" }]
    callToolImpl := fun tool_name _ =>
      if tool_name = "read_doc_contents" then
        Except.ok (some { content := [ContentItem.textContent "Document body"], isError := false })
      else
        Except.ok none }

/-- A model response with two function-call requests: one for the
existing read_doc_contents tool and one for a tool no client owns. -/
def demoParts : List Part :=
  [Part.text "let me call some tools",
   Part.functionCall { name := "read_doc_contents", input := [("doc_id", "plan.md")] },
   Part.functionCall { name := "missing_tool", input := [] }]

/-- Claim C1: the dispatcher is claimed to return one FunctionResponse
per request in request order, synthesizing a tool-not-found error and
continuing when no provider owns the tool. The loop indeed builds
exactly that list of parts (tool_result_blocks), but
execute_tool_requests has no return statement, so the function returns
None instead of the list. -/
theorem execute_tool_requests_returns_none_not_blocks :
    execute_tool_requests [demoClient] demoParts = Except.ok none ∧
    execute_tool_requests_blocks [demoClient] demoParts = Except.ok
      [Part.functionResponse "read_doc_contents" "[\"Document body\"]" false,
       Part.functionResponse "missing_tool" "Could not find that tool" true] := by
  exact ⟨rfl, rfl⟩

/-- A concrete provider whose only tool raises on every invocation. -/
def failClient : MCPClient :=
  { tools := [{ name := "boom_tool"
                description := "always raises"
                inputSchema := "schema" }]
    callToolImpl := fun _ _ => Except.error "boom" }

/-- A model response with a single request for the raising tool. -/
def failParts : List Part :=
  [Part.functionCall { name := "boom_tool", input := [] }]

/-- Claim C2: the dispatcher is claimed to catch every exception raised
by a provider invocation and convert it into an isError response. In
fact the except handler evaluates the local tool_output, which is
unbound when call_tool raised on the first request, so an
UnboundLocalError escapes execute_tool_requests. -/
theorem execute_tool_requests_unbound_local_propagates :
    execute_tool_requests [failClient] failParts =
      Except.error (PyError.unboundLocalError "tool_output") := by
  exact rfl

/-- Claim C3: the Done-state answer is claimed to equal the newline-join
of the Text parts of the latest model message, with a sentinel only
when that join is empty. Because text_from_message filters the parts
with isinstance(part, str), false for every genai Part, the join is
empty even for a response consisting of one Text part, and Chat.run
answers with the sentinel instead of the text. -/
theorem chat_done_answer_always_sentinel :
    text_from_message [Part.text "hello"] = "" ∧
    chat_done_answer [Part.text "hello"] = "The model did not provide a text response." := by
  exact ⟨rfl, rfl⟩

/-- The loop of _find_client_with_tool is the first-match search over
the client list. -/
theorem find_client_eq_list_find (tool_name : String) :
    ∀ clients : List MCPClient,
      _find_client_with_tool clients tool_name =
        List.find? (fun c => c.tools.any (fun t => t.name == tool_name)) clients := by
  intro clients
  induction clients with
  | nil => rfl
  | cons client rest ih =>
    simp only [_find_client_with_tool, MCPClient.list_tools]
    cases hf : client.tools.find? (fun t => t.name == tool_name) with
    | some u =>
      have hmem := List.mem_of_find?_eq_some hf
      have hpu := List.find?_some hf
      have hp : client.tools.any (fun t => t.name == tool_name) = true :=
        List.any_eq_true.mpr ⟨u, hmem, hpu⟩
      simp [List.find?_cons, hp]
    | none =>
      have hpneg : ¬ client.tools.any (fun t => t.name == tool_name) = true := by
        simp only [List.any_eq_true, not_exists, not_and]
        intro t ht
        have h2 := List.find?_eq_none.mp hf t ht
        simpa using h2
      have hp : client.tools.any (fun t => t.name == tool_name) = false :=
        Bool.eq_false_iff.mpr hpneg
      simp [List.find?_cons, hp, ih]

/-- Claim C7: for every tool name and ordered client list, resolution
returns the first client in registration order whose tool list contains
the name (later same-named providers shadowed), and returns the
explicit not-found value none exactly when no tool list of any client
contains the name; being a total function it never raises. -/
theorem find_client_with_tool_first_match (clients : List MCPClient) (tool_name : String) :
    _find_client_with_tool clients tool_name =
      List.find? (fun c => c.tools.any (fun t => t.name == tool_name)) clients ∧
    (_find_client_with_tool clients tool_name = none ↔
      ∀ c ∈ clients, ∀ t ∈ c.tools, t.name ≠ tool_name) := by
  refine ⟨find_client_eq_list_find tool_name clients, ?_⟩
  rw [find_client_eq_list_find tool_name clients, List.find?_eq_none]
  constructor
  · intro h c hc t ht heq
    have hany := h c hc
    simp only [List.any_eq_true, not_exists, not_and] at hany
    exact hany t ht (by simpa using heq)
  · intro h c hc
    simp only [List.any_eq_true, not_exists, not_and]
    intro t ht hbeq
    exact h c hc t ht (by simpa using hbeq)

/-- A provider exposing a tool named x. -/
def clientA : MCPClient :=
  { tools := [{ name := "x", description := "from A", inputSchema := "sa" }]
    callToolImpl := fun _ _ => Except.ok none }

/-- A second provider exposing its own tool also named x. -/
def clientB : MCPClient :=
  { tools := [{ name := "x", description := "from B", inputSchema := "sb" }]
    callToolImpl := fun _ _ => Except.ok none }

/-- Claim C8 counterexample: with two providers both exposing a tool
named x, the aggregated catalog contains both entries, so the catalog
names are not pairwise distinct and the colliding later tool is not
dropped. -/
theorem get_all_tools_duplicate_counterexample :
    ¬ ((get_all_tools [clientA, clientB]).map (fun t => t.name)).Nodup := by
  decide

/-- Appending-fold over a list is the flattening of the mapped lists. -/
theorem foldl_append_map_join {α β : Type} (g : α → List β) :
    ∀ (l : List α) (acc : List β),
      l.foldl (fun a c => a ++ g c) acc = acc ++ (l.map g).flatten := by
  intro l
  induction l with
  | nil => intro acc; simp
  | cons x xs ih => intro acc; simp [List.foldl_cons, ih]

/-- Claim C8 (amended): the aggregated catalog is exactly the
concatenation of the converted tool list of every provider in registration
order, with no deduplication, so colliding names all appear;
first-registered-wins uniqueness holds only at resolution time
(_find_client_with_tool), not in the catalog. -/
theorem get_all_tools_concat_all (clients : List MCPClient) :
    get_all_tools clients =
      (clients.map (fun c => c.tools.map (fun t =>
        ({ name := t.name, description := t.description,
           input_schema := t.inputSchema } : ToolDict)))).flatten := by
  have h := foldl_append_map_join
    (fun c : MCPClient => c.tools.map (fun t =>
      ({ name := t.name, description := t.description,
         input_schema := t.inputSchema } : ToolDict)))
    clients []
  simpa [get_all_tools, MCPClient.list_tools] using h

/-- Decidable equality for Except results, used to evaluate the embedded
functions at concrete inputs. -/
instance {ε α : Type} [DecidableEq ε] [DecidableEq α] : DecidableEq (Except ε α) := by
  intro a b
  cases a with
  | ok x =>
    cases b with
    | ok y =>
      exact if h : x = y then Decidable.isTrue (by rw [h])
      else Decidable.isFalse (by intro hc; cases hc; exact h rfl)
    | error y => exact Decidable.isFalse (by intro hc; cases hc)
  | error x =>
    cases b with
    | ok y => exact Decidable.isFalse (by intro hc; cases hc)
    | error y =>
      exact if h : x = y then Decidable.isTrue (by rw [h])
      else Decidable.isFalse (by intro hc; cases hc; exact h rfl)

/-- A concrete document server with two documents and no prompt output. -/
def demoDocClient : DocClient :=
  { docIds := ["plan.md", "spec.txt"]
    docContent := fun doc_id =>
      if doc_id = "spec.txt" then "These specifications define the requirements."
      else "The plan outlines the steps."
    promptMessages := fun _ _ => [] }

/-- Claim C4 counterexample: for the query hello, with no mention marker
and no leading slash, the core CliChat._process_query still performs the
resource-catalog read, and the text part of the appended user message is the
indented f-string template around the query, not the literal query, so
the instance of the claim at this input is false. -/
theorem cli_process_query_counterexample :
    ¬ (cli_process_query demoDocClient [] "hello" =
        Except.ok ([{ role := Role.user, parts := [Part.text "hello"] }], [])) := by
  decide

/-- Claim C4 (amended): in the app.py agent (CliChat.run), every query
not containing a mention marker performs no provider operations and
appends exactly one user message whose single part is the literal query
text; in the core cli_chat.py agent, by contrast, a non-command query
always triggers the catalog read and the appended text wraps the query
in an indented template. -/
theorem app_preprocess_literal_no_io (dc : DocClient) (history : List Message)
    (query : String) (h : query.toList.contains '@' = false) :
    app_run_preprocess dc history query =
      (history ++ [{ role := Role.user, parts := [Part.text query] }], []) := by
  have h2 : ¬ ('@' ∈ query.toList) := by simpa using h
  have h3 : ¬ ('@' ∈ query.data) := h2
  simp [app_run_preprocess, if_neg h3]

/-- Witness for the amended claim C4 at the query hello. -/
theorem app_preprocess_literal_no_io_witness :
    ("hello".toList.contains '@' = false) ∧
    app_run_preprocess demoDocClient [] "hello" =
      ([{ role := Role.user, parts := [Part.text "hello"] }], []) := by
  exact ⟨by decide, app_preprocess_literal_no_io demoDocClient [] "hello" (by decide)⟩

/-- The collecting fold of _extract_resources: its document component is
the catalog filtered to the mentioned ids, in catalog order. -/
theorem extract_fold_fst (dc : DocClient) (mentions : List String) :
    ∀ (l : List String) (a : List (String × String)) (b : List ProviderOp),
      (List.foldl (fun (acc : List (String × String) × List ProviderOp) doc_id =>
          if mentions.contains doc_id then
            (acc.1 ++ [(doc_id, dc.docContent doc_id)],
             acc.2 ++ [ProviderOp.readResource ("docs://documents/" ++ doc_id)])
          else acc) (a, b) l).1 =
        a ++ (l.filter (fun d => mentions.contains d)).map (fun d => (d, dc.docContent d)) := by
  intro l
  induction l with
  | nil => intro a b; simp
  | cons x xs ih =>
    intro a b
    by_cases hx : x ∈ mentions
    · have hxc : mentions.contains x = true := by simpa using hx
      simp only [List.foldl_cons, List.filter_cons, hxc, eq_self_iff_true, if_true, ih,
        List.map_cons, List.append_assoc, List.singleton_append]
    · have hxc : mentions.contains x = false := by simpa using hx
      simp only [List.foldl_cons, List.filter_cons, hxc, Bool.false_eq_true, if_false, ih]

/-- The collecting fold of the app.py _extract_resources: its document
component is the mention list filtered to the catalog, in mention
order. -/
theorem app_extract_fold_fst (dc : DocClient) :
    ∀ (l : List String) (a : List (String × String)) (b : List ProviderOp),
      (List.foldl (fun (acc : List (String × String) × List ProviderOp) mention =>
          if dc.docIds.contains mention then
            (acc.1 ++ [(mention, dc.docContent mention)],
             acc.2 ++ [ProviderOp.readResource ("docs://documents/" ++ mention)])
          else acc) (a, b) l).1 =
        a ++ (l.filter (fun m => dc.docIds.contains m)).map (fun m => (m, dc.docContent m)) := by
  intro l
  induction l with
  | nil => intro a b; simp
  | cons x xs ih =>
    intro a b
    by_cases hx : x ∈ dc.docIds
    · have hxc : dc.docIds.contains x = true := by simpa using hx
      simp only [List.foldl_cons, List.filter_cons, hxc, eq_self_iff_true, if_true, ih,
        List.map_cons, List.append_assoc, List.singleton_append]
    · have hxc : dc.docIds.contains x = false := by simpa using hx
      simp only [List.foldl_cons, List.filter_cons, hxc, Bool.false_eq_true, if_false, ih]

/-- A one-document server used to exhibit duplicate-mention behaviour. -/
def dupDocClient : DocClient :=
  { docIds := ["a"]
    docContent := fun _ => "alpha"
    promptMessages := fun _ _ => [] }

/-- Claim C5 counterexample: for the query mentioning the document a
twice, the app.py expansion produces two blocks although exactly one
catalog entry matches a mention, so expansion does not produce one
block per matching catalog entry. -/
theorem app_extract_resources_duplicate_counterexample :
    ¬ ((app_extract_resources dupDocClient "@a @a").1.length =
       (dupDocClient.docIds.filter
         (fun d => (mentions_of "@a @a").contains d)).length) := by
  decide

/-- Claim C5 (amended): resource expansion collects exactly the
whitespace-delimited tokens starting with the mention marker (marker
stripped), produces no block and no error for unmatched mentions, and:
the core cli_chat.py variant produces, in catalog order, exactly one
tagged block per catalog entry whose id matches a mention, while the
app.py variant produces one block per mention token found in the
catalog, in mention order, so a repeated mention yields repeated
blocks. -/
theorem extract_resources_characterization (dc : DocClient) (query : String) :
    (_extract_resources dc query).1 =
      String.join ((dc.docIds.filter (fun d => (mentions_of query).contains d)).map
        (fun d => document_block d (dc.docContent d))) ∧
    (app_extract_resources dc query).1 =
      ((mentions_of query).filter (fun m => dc.docIds.contains m)).map
        (fun m => Part.text (document_block m (dc.docContent m))) := by
  constructor
  · simp only [_extract_resources]
    rw [extract_fold_fst dc (mentions_of query)]
    simp only [List.nil_append, List.map_map]
    rfl
  · simp only [app_extract_resources]
    cases hm : (mentions_of query).isEmpty with
    | true =>
      have : mentions_of query = [] := List.isEmpty_iff.mp hm
      simp [this]
    | false =>
      simp only [hm, Bool.false_eq_true, if_false]
      rw [app_extract_fold_fst dc (mentions_of query)]
      simp only [List.nil_append, List.map_map]
      rfl

/-- A first user message of the conversation. -/
def m0 : Message := { role := Role.user, parts := [Part.text "hi"] }

/-- Claim C6 counterexample: after appending one user message, a model
call carrying a system instruction inserts a system message at the
front of the shared history, so the snapshot no longer equals the
sequence of appended messages. -/
theorem run_agent_ops_system_insert_counterexample :
    ¬ (run_agent_ops []
        [AgentOp.appendUser m0, AgentOp.modelCall (some "You are a helpful agent")] =
       appended_of
        [AgentOp.appendUser m0, AgentOp.modelCall (some "You are a helpful agent")]) := by
  decide

/-- Claim C6 (amended): over every sequence of agent operations in which
the model call is invoked without a (nonempty) system instruction — as
the agent loop of Chat.run always does — the history after the
operations is the initial history followed by exactly the appended
messages in order: nothing is reordered, mutated or lost. A model call
invoked with a nonempty system instruction instead inserts a system
message at the front of the history. -/
theorem conversation_append_only (ops : List AgentOp) (history : List Message)
    (h : ∀ op ∈ ops, is_loop_op op = true) :
    run_agent_ops history ops = history ++ appended_of ops := by
  induction ops generalizing history with
  | nil => simp [run_agent_ops, appended_of]
  | cons op rest ih =>
    have hop : is_loop_op op = true := h op (List.mem_cons_self op rest)
    have hrest : ∀ o ∈ rest, is_loop_op o = true :=
      fun o ho => h o (List.mem_cons_of_mem op ho)
    cases op with
    | appendUser m =>
      have hr := ih (history ++ [m]) hrest
      simp only [run_agent_ops, List.foldl_cons, apply_agent_op] at hr ⊢
      rw [hr]
      simp [appended_of, List.filterMap_cons]
    | appendModel m =>
      have hr := ih (history ++ [m]) hrest
      simp only [run_agent_ops, List.foldl_cons, apply_agent_op] at hr ⊢
      rw [hr]
      simp [appended_of, List.filterMap_cons]
    | modelCall sys =>
      have heff : apply_agent_op history (AgentOp.modelCall sys) = history := by
        cases sys with
        | none => rfl
        | some s =>
          have hs : s = "" := by simpa [is_loop_op] using hop
          simp [apply_agent_op, gemini_chat_effect, hs]
      have hr := ih history hrest
      simp only [run_agent_ops, List.foldl_cons] at hr ⊢
      rw [heff, hr]
      simp [appended_of, List.filterMap_cons]

/-- Witness for the amended claim C6: one appended message followed by a
loop-style model call (no system instruction). -/
theorem conversation_append_only_witness :
    (∀ op ∈ [AgentOp.appendUser m0, AgentOp.modelCall none], is_loop_op op = true) ∧
    run_agent_ops [] [AgentOp.appendUser m0, AgentOp.modelCall none] =
      [] ++ appended_of [AgentOp.appendUser m0, AgentOp.modelCall none] := by
  exact ⟨by decide,
    conversation_append_only [AgentOp.appendUser m0, AgentOp.modelCall none] [] (by decide)⟩

/-- Claim C9: for every query starting with the slash, the command name
passed to the prompt fetch is the first whitespace-delimited token with
every slash character removed, not only the leading one, and the second
token is passed as the document id. -/
theorem command_name_removes_every_slash (query t1 t2 : String) (rest : List String)
    (hsplit : py_split query = t1 :: t2 :: rest)
    (hslash : py_starts_with query '/' = true) :
    _process_command query =
      some (Except.ok (String.mk (t1.toList.filter (fun c => c != '/')), t2)) := by
  simp [_process_command, hslash, hsplit, py_remove_slashes]

/-- Witness for claim C9 at the two-token command query whose first
token contains an interior slash: the fetched command name is ab. -/
theorem command_name_removes_every_slash_witness :
    py_split "/a/b spec.txt" = ["/a/b", "spec.txt"] ∧
    py_starts_with "/a/b spec.txt" '/' = true ∧
    _process_command "/a/b spec.txt" = some (Except.ok ("ab", "spec.txt")) := by
  refine ⟨by decide, by decide, ?_⟩
  have h := command_name_removes_every_slash "/a/b spec.txt" "/a/b" "spec.txt" []
    (by decide) (by decide)
  rw [h]
  decide

/-- Claim C10: when the mention marker occurs only inside tokens (no
token begins with it), resource expansion yields the empty block
sequence in both variants, while the presence of the marker anywhere in
the query still makes the agent loop aggregate the tool catalog and
attach it to the model call. -/
theorem inline_mentions_no_expansion (dc : DocClient) (clients : List MCPClient)
    (query : String)
    (hTokens : ∀ w ∈ py_split query, py_starts_with w '@' = false)
    (hAt : query.toList.contains '@' = true) :
    (_extract_resources dc query).1 = "" ∧
    app_extract_resources dc query = ([], []) ∧
    use_tools_for query = true ∧
    tool_config_for clients query = some (get_all_tools clients) := by
  have hm : mentions_of query = [] := by
    simp only [mentions_of, List.filterMap_eq_nil_iff]
    intro w hw
    simp [hTokens w hw]
  have hu : use_tools_for query = true := by
    have h4 : '@' ∈ query.data := by simpa using hAt
    simp [use_tools_for, h4]
  refine ⟨?_, ?_, hu, ?_⟩
  · simp only [_extract_resources, hm]
    rw [extract_fold_fst dc []]
    have hj : List.filter (fun d => List.contains [] d) dc.docIds = [] := by
      simp [List.contains]
    rw [hj]
    rfl
  · simp [app_extract_resources, hm]
  · simp [tool_config_for, hu]

/-- Witness for claim C10 at the query a@b: the only token does not
begin with the marker, yet the marker occurs in the query. -/
theorem inline_mentions_no_expansion_witness :
    (∀ w ∈ py_split "a@b", py_starts_with w '@' = false) ∧
    ("a@b".toList.contains '@' = true) ∧
    ((_extract_resources demoDocClient "a@b").1 = "" ∧
     app_extract_resources demoDocClient "a@b" = ([], []) ∧
     use_tools_for "a@b" = true ∧
     tool_config_for [clientA] "a@b" = some (get_all_tools [clientA])) := by
  exact ⟨by decide, by decide,
    inline_mentions_no_expansion demoDocClient [clientA] "a@b" (by decide) (by decide)⟩

end Src
